import Mathlib

/-!
Verification of the retrieval-and-orchestration subsystem of the RAG AI agent.

The development shallowly embeds the Python source:
- `app/rag/embeddings.py`   (`EmbeddingsGenerator`)
- `app/rag/vector_store.py` (`VectorStore`)
- `app/agent/memory.py`     (`SessionMemory`)
- `app/agent/tools.py`      (`DocumentSearchTool`)
- `app/agent/ai_agent.py`   (`AIAgent`)

Modelling conventions:
- Python floats and float32 vector components are modelled as rationals (ℚ).
- Wall-clock time (`datetime.now()`) is an explicit `now : Nat` argument,
  measured in minutes so that the session timeout compares directly.
- External services (Azure OpenAI embeddings / chat completions) are oracles:
  functions returning `Option` results (`none` = the call raised).
- Raised Python exceptions are `Except.error`; every external request issued
  is recorded in a `calls` trace so "skips the external call" is statable.
- Python dicts keyed by strings are association lists.
-/

/-- Fixed embedding dimension used throughout the source (`self.dimension = 1536`,
and the zero-vector fallback `[0.0] * 1536`). -/
def embeddingDim : Nat := 1536

/-- Largest finite float32 value, `(2^24 - 1) * 2^104`.  FAISS pads the distance
array with this value when `k` exceeds the number of stored vectors. -/
def floatMax : ℚ := (2 ^ 24 - 1) * 2 ^ 104

/-- A stored document chunk: the `content` text plus its `metadata["source"]`. -/
structure DocChunk where
  content : String
  source : String
deriving DecidableEq, Repr

/-- One entry of the vector store: the FAISS vector paired with the chunk
metadata appended in sync by `add_documents`. -/
structure VSEntry where
  vec : List ℚ
  doc : DocChunk
deriving DecidableEq, Repr

/-- State of `VectorStore`: the parallel FAISS index / `self.documents` lists,
kept as a single list of pairs (they are only ever appended together). -/
structure VSState where
  entries : List VSEntry
deriving DecidableEq, Repr

/-- One element of the list returned by `VectorStore.search`:
`{**self.documents[idx], "similarity_score": ..., "rank": i + 1}`. -/
structure SearchResult where
  doc : DocChunk
  similarity_score : ℚ
  rank : Nat
deriving DecidableEq, Repr

/-- Squared Euclidean (L2) distance computed by `faiss.IndexFlatL2`. -/
def sqDist : List ℚ → List ℚ → ℚ
  | x :: xs, y :: ys => (x - y) ^ 2 + sqDist xs ys
  | _, _ => 0

/-- Distances of the query to every stored vector, tagged with the insertion
index (as `Int`, since FAISS reports missing results as index `-1`). -/
def scoreAll (q : List ℚ) : Nat → List (List ℚ) → List (ℚ × Int)
  | _, [] => []
  | i, v :: vs => (sqDist q v, (i : Int)) :: scoreAll q (i + 1) vs

/-- FAISS result order: ascending distance, ties broken by insertion index. -/
def distLE (a b : ℚ × Int) : Prop :=
  a.1 < b.1 ∨ (a.1 = b.1 ∧ a.2 ≤ b.2)

instance : DecidableRel distLE := fun a b => by
  unfold distLE; infer_instance

/-- `faiss.IndexFlatL2.search`: the `k` nearest stored vectors by L2 distance
(exhaustive scan, ties by insertion order); when `k` exceeds the number of
stored vectors the remaining slots are padded with distance `floatMax` and
index `-1`. -/
def faissTopK (vecs : List (List ℚ)) (q : List ℚ) (k : Nat) : List (ℚ × Int) :=
  let sorted := List.insertionSort distLE (scoreAll q 0 vecs)
  let top := sorted.take k
  top ++ List.replicate (k - top.length) (floatMax, -1)

/-- Python list indexing `docs[idx]`: negative indices count from the end,
out-of-range raises (`none`). -/
def pyGet (docs : List DocChunk) (idx : Int) : Option DocChunk :=
  if 0 ≤ idx then docs[idx.toNat]?
  else docs[docs.length - (-idx).toNat]?

/-- The result-building loop of `VectorStore.search`: for each `(distance, idx)`
pair (with `enumerate` counter `i`), keep the document when `idx < len(documents)`
and `1 / (1 + distance) >= similarity_threshold`.  Indexing out of range raises. -/
def searchLoop (docs : List DocChunk) (threshold : ℚ) :
    Nat → List (ℚ × Int) → Except String (List SearchResult)
  | _, [] => .ok []
  | i, (dist, idx) :: rest =>
    if idx < (docs.length : Int) then
      let similarity := 1 / (1 + dist)
      if threshold ≤ similarity then
        match pyGet docs idx with
        | none => .error "IndexError"
        | some d =>
          match searchLoop docs threshold (i + 1) rest with
          | .error e => .error e
          | .ok tail => .ok ({ doc := d, similarity_score := similarity, rank := i + 1 } :: tail)
      else searchLoop docs threshold (i + 1) rest
    else searchLoop docs threshold (i + 1) rest

/-- `VectorStore.search` after the query embedding has been computed:
FAISS scan, then the filtering loop. -/
def searchCore (entries : List VSEntry) (threshold : ℚ) (qv : List ℚ) (top_k : Nat) :
    Except String (List SearchResult) :=
  searchLoop (entries.map (·.doc)) threshold 0 (faissTopK (entries.map (·.vec)) qv top_k)

/-- The embedding cache `self.cache`, a dict keyed by the exact text. -/
def EmbCache : Type := List (String × List ℚ)

instance : DecidableEq EmbCache := by
  unfold EmbCache; infer_instance

/-- Outcome of an embedding operation: the returned value (or raised error),
the cache afterwards, and the external requests issued (each request is the
list of input texts sent). -/
structure EmbOutcome where
  result : Except String (List ℚ)
  cache : EmbCache
  calls : List (List String)

/-- `EmbeddingsGenerator.generate_embedding`: return the cached vector on a
hit; otherwise issue one external call, cache a successful result, and raise
on failure. -/
def generate_embedding (svc : String → Option (List ℚ)) (cache : EmbCache)
    (text : String) : EmbOutcome :=
  match List.lookup text cache with
  | some v => ⟨.ok v, cache, []⟩
  | none =>
    match svc text with
    | some v => ⟨.ok v, (text, v) :: cache, [[text]]⟩
    | none => ⟨.error "Error generating embedding", cache, [[text]]⟩

/-- `VectorStore.search(query, top_k)`: empty store returns `[]` before any
embedding call; otherwise the query is embedded (through the cache) and the
FAISS scan plus threshold filter runs. -/
def vsSearch (svc : String → Option (List ℚ)) (cache : EmbCache) (st : VSState)
    (threshold : ℚ) (top_k : Nat) (query : String) :
    Except String (List SearchResult) × EmbCache × List (List String) :=
  if st.entries.isEmpty then (.ok [], cache, [])
  else
    match generate_embedding svc cache query with
    | ⟨.error e, c, calls⟩ => (.error e, c, calls)
    | ⟨.ok qv, c, calls⟩ => (searchCore st.entries threshold qv top_k, c, calls)

/-- The deduplication loop of `get_relevant_chunks`: append each source not
already present, preserving first-seen order. -/
def sourceDedup (sources : List String) : List String :=
  sources.foldl (fun acc s => if s ∈ acc then acc else acc ++ [s]) []

/-- `VectorStore.get_relevant_chunks`: run `search`, keep every result's
content as a chunk, and deduplicate the source names. -/
def get_relevant_chunks (svc : String → Option (List ℚ)) (cache : EmbCache)
    (st : VSState) (threshold : ℚ) (top_k : Nat) (query : String) :
    Except String (List String × List String) × EmbCache × List (List String) :=
  match vsSearch svc cache st threshold top_k query with
  | (.error e, c, calls) => (.error e, c, calls)
  | (.ok results, c, calls) =>
    (.ok (results.map (·.doc.content), sourceDedup (results.map (·.doc.source))), c, calls)

/-- Python slicing by `range(0, len(texts), batch_size)`: the list cut into
consecutive groups of `batch_size`. -/
def chunksOf (bs : Nat) : List α → List (List α)
  | [] => []
  | x :: xs => (x :: xs.take (bs - 1)) :: chunksOf bs (xs.drop (bs - 1))
termination_by l => l.length
decreasing_by
  simp only [List.length_cons, List.length_drop]
  omega

/-- The per-item fallback loop of `generate_embeddings_batch`: after a failed
group call, each text goes through `generate_embedding` individually, and a
text whose individual call also raises contributes a zero vector. -/
def fallbackLoop (svc : String → Option (List ℚ)) (cache : EmbCache) :
    List String → List (List ℚ) × EmbCache × List (List String)
  | [] => ([], cache, [])
  | t :: ts =>
    let o := generate_embedding svc cache t
    let v := match o.result with
      | .ok v => v
      | .error _ => List.replicate embeddingDim 0
    let (rest, c, calls) := fallbackLoop svc o.cache ts
    (v :: rest, c, o.calls ++ calls)

/-- The main loop of `generate_embeddings_batch` over the groups: one external
request per group; a successful group's vectors extend the output directly
(without touching the cache), a failed group falls back per item. -/
def batchLoop (svc : String → Option (List ℚ))
    (svcBatch : List String → Option (List (List ℚ))) (cache : EmbCache) :
    List (List String) → List (List ℚ) × EmbCache × List (List String)
  | [] => ([], cache, [])
  | b :: bs =>
    match svcBatch b with
    | some vs =>
      let (rest, c, calls) := batchLoop svc svcBatch cache bs
      (vs ++ rest, c, b :: calls)
    | none =>
      let (vs, c₁, calls₁) := fallbackLoop svc cache b
      let (rest, c₂, calls₂) := batchLoop svc svcBatch c₁ bs
      (vs ++ rest, c₂, (b :: calls₁) ++ calls₂)

/-- `EmbeddingsGenerator.generate_embeddings_batch(texts, batch_size)`. -/
def generate_embeddings_batch (svc : String → Option (List ℚ))
    (svcBatch : List String → Option (List (List ℚ))) (cache : EmbCache)
    (texts : List String) (batch_size : Nat) :
    List (List ℚ) × EmbCache × List (List String) :=
  batchLoop svc svcBatch cache (chunksOf batch_size texts)

/-! ## Session memory (`app/agent/memory.py`) -/

/-- One entry of a session's `messages` list. -/
structure PyMessage where
  role : String
  content : String
  timestamp : Nat
deriving DecidableEq, Repr

/-- One session dict: `messages`, `created_at`, `last_accessed`. -/
structure Session where
  messages : List PyMessage
  created_at : Nat
  last_accessed : Nat
deriving DecidableEq, Repr

/-- State of `SessionMemory`: the `sessions` dict (association list), the
configured `timeout_minutes`, and a counter standing in for `uuid.uuid4()`
freshness when generating new session ids. -/
structure MemState where
  sessions : List (String × Session)
  timeout_minutes : Nat
  counter : Nat
deriving DecidableEq, Repr

/-- Python dict assignment `d[k] = v`: overwrite an existing key else append. -/
def dictInsert (k : String) (v : Session) (d : List (String × Session)) :
    List (String × Session) :=
  if (List.lookup k d).isSome then d.map (fun p => if p.1 = k then (k, v) else p)
  else d ++ [(k, v)]

/-- `SessionMemory._is_expired`: idle time strictly greater than the timeout. -/
def is_expired (now : Nat) (timeout_minutes : Nat) (s : Session) : Bool :=
  timeout_minutes < now - s.last_accessed

/-- `SessionMemory.delete_session`. -/
def delete_session (sid : String) (m : MemState) : MemState :=
  { m with sessions := m.sessions.filter (fun p => p.1 ≠ sid) }

/-- `SessionMemory.create_session`: fresh id, empty message list, both
timestamps set to now. -/
def create_session (now : Nat) (m : MemState) : String × MemState :=
  let sid := "session-" ++ toString m.counter
  (sid, { m with
          sessions := dictInsert sid ⟨[], now, now⟩ m.sessions,
          counter := m.counter + 1 })

/-- `SessionMemory.get_session`: unknown id returns `none`; an expired session
is deleted on access and reported as `none`; otherwise `last_accessed` is
refreshed and the (refreshed) session returned. -/
def get_session (now : Nat) (sid : String) (m : MemState) :
    Option Session × MemState :=
  match List.lookup sid m.sessions with
  | none => (none, m)
  | some s =>
    if is_expired now m.timeout_minutes s then (none, delete_session sid m)
    else
      let s' := { s with last_accessed := now }
      (some s', { m with sessions := dictInsert sid s' m.sessions })

/-- `SessionMemory.add_message`: resolve via `get_session` (refreshing or
lazily deleting), and append the timestamped entry when a session was found. -/
def add_message (now : Nat) (sid : String) (role content : String) (m : MemState) :
    MemState :=
  match (get_session now sid m).1 with
  | none => (get_session now sid m).2
  | some s =>
    let m' := (get_session now sid m).2
    let s' : Session := { s with messages := s.messages ++ [⟨role, content, now⟩] }
    { m' with sessions := dictInsert sid s' m'.sessions }

/-- `SessionMemory.get_messages`: resolve via `get_session`; `limit` keeps the
last `limit` messages, except that a falsy limit (`None` or `0`) keeps all. -/
def get_messages (now : Nat) (sid : String) (limit : Option Nat) (m : MemState) :
    List PyMessage × MemState :=
  match (get_session now sid m).1 with
  | none => ([], (get_session now sid m).2)
  | some s =>
    match limit with
    | some l =>
      if l ≠ 0 then (s.messages.drop (s.messages.length - l), (get_session now sid m).2)
      else (s.messages, (get_session now sid m).2)
    | none => (s.messages, (get_session now sid m).2)

/-- The formatting step of `get_conversation_context`: `""` for no messages,
else each message as `role: content` on its own line under the header. -/
def ctxFormat (msgs : List PyMessage) : String :=
  if msgs.isEmpty then ""
  else msgs.foldl (fun acc msg => acc ++ msg.role ++ ": " ++ msg.content ++ "\n")
    "Previous conversation:\n"

/-- `SessionMemory.get_conversation_context`: the most recent `max_messages`
messages formatted oldest-first, or `""` when there are none. -/
def get_conversation_context (now : Nat) (sid : String) (max_messages : Nat)
    (m : MemState) : String × MemState :=
  (ctxFormat (get_messages now sid (some max_messages) m).1,
   (get_messages now sid (some max_messages) m).2)

/-- `SessionMemory.cleanup_expired_sessions`: delete every expired session and
return how many were deleted. -/
def cleanup_expired_sessions (now : Nat) (m : MemState) : Nat × MemState :=
  let expired := (m.sessions.filter (fun p => is_expired now m.timeout_minutes p.2)).map (·.1)
  (expired.length, expired.foldl (fun acc sid => delete_session sid acc) m)

/-- `SessionMemory.get_stats`: the `total_sessions` field. -/
def total_sessions (m : MemState) : Nat := m.sessions.length

/-- Reference form of first-seen-order deduplication: keep each element's
first occurrence, dropping all later duplicates.  (Spec-side characterisation
of the `unique_sources` loop; `sourceDedup` is proved equal to it.) -/
def specFirstSeen : List String → List String
  | [] => []
  | s :: rest => s :: specFirstSeen (rest.filter (fun t => t ≠ s))
termination_by l => l.length
decreasing_by
  simp only [List.length_cons]
  exact Nat.lt_succ_of_le (List.length_filter_le _ _)

/-! ## String helpers modelling Python `str` methods (on `List Char`, which
kernel-reduces, unlike `String.toUpper`/`String.trim`). -/

/-- Python `str.strip()`: drop whitespace from both ends. -/
def stripChars (l : List Char) : List Char :=
  ((l.dropWhile Char.isWhitespace).reverse.dropWhile Char.isWhitespace).reverse

/-- Python `str.strip()` on `String`. -/
def pyStrip (s : String) : String := ⟨stripChars s.data⟩

/-- Python `str.upper()` (ASCII suffices for the classifier labels). -/
def pyUpper (s : String) : String := ⟨s.data.map Char.toUpper⟩

/-- Whether `needle` is an initial segment of `hay`. -/
def seqStarts : List Char → List Char → Bool
  | [], _ => true
  | _ :: _, [] => false
  | a :: as, b :: bs => a = b && seqStarts as bs

/-- Whether `needle` occurs contiguously in `hay`. -/
def seqContains (needle : List Char) : List Char → Bool
  | [] => needle.isEmpty
  | b :: bs => seqStarts needle (b :: bs) || seqContains needle bs

/-- Python `needle in hay` on strings. -/
def pyIn (needle hay : String) : Bool := seqContains needle.data hay.data

/-! ## Agent (`app/agent/ai_agent.py`, `app/agent/tools.py`) -/

/-- The literal `classification_prompt` f-string of `AIAgent.classify_query`,
with `query` and `conversation_context` substituted. -/
def classificationPrompt (query ctx : String) : String :=
  "You are a query classifier. Determine if the following query requires searching company documents or can be answered with general knowledge.\n\nCompany documents contain information about:\n- HR policies (leave, benefits, code of conduct)\n- Product FAQs and features\n- Security policies\n- Employee onboarding\n- Technical API documentation\n\nQuery: " ++
    query ++ "\n\n" ++ ctx ++
    "\n\nRespond with ONLY one word: \"DOCUMENT\" if it needs company documents, or \"DIRECT\" if it\'s general knowledge.\n"

/-- The `system_prompt` of `AIAgent.generate_response`. -/
def systemPrompt : String :=
  "You are a helpful AI assistant. Answer questions clearly and concisely.\nIf context from documents is provided, use it to answer the question accurately.\nIf no context is provided, use your general knowledge.\nAlways be professional and helpful."

/-- The fixed fallback answer of `AIAgent.execute` when retrieval yields no
sources. -/
def noInfoAnswer : String :=
  "I couldn\'t find relevant information in the company documents. This might be outside my knowledge base."

/-- Result of `AIAgent.classify_query`. -/
structure Classification where
  needs_rag : Bool
  classification : String
deriving DecidableEq, Repr

/-- `AIAgent.classify_query`: one external call on the classification prompt;
on success `needs_rag` is whether `"DOCUMENT"` occurs in the stripped,
upper-cased reply; on failure the fail-open default
`{"needs_rag": True, "classification": "DOCUMENT"}`. -/
def classify_query (cO : String → Option String) (query ctx : String) :
    Classification :=
  match cO (classificationPrompt query ctx) with
  | some content =>
    let c := pyUpper (pyStrip content)
    ⟨pyIn "DOCUMENT" c, c⟩
  | none => ⟨true, "DOCUMENT"⟩

/-- The `user_message` built by `AIAgent.generate_response`. -/
def userMessage (query context : String) : String :=
  if context ≠ "" then
    "Context from company documents:\n" ++ context ++ "\n\nQuestion: " ++ query ++
      "\n\nPlease answer based on the provided context. If the context doesn\'t contain relevant information, say so."
  else query

/-- The `messages` list sent by `AIAgent.generate_response`: system prompt,
the conversation history when non-empty, then the user message. -/
def generateMessages (query context conversation_history : String) :
    List (String × String) :=
  [("system", systemPrompt)] ++
    (if conversation_history ≠ "" then [("user", conversation_history)] else []) ++
    [("user", userMessage query context)]

/-- `AIAgent.generate_response`: one external generation call; failure raises. -/
def generate_response (gO : List (String × String) → Option String)
    (query context conversation_history : String) : Except String String :=
  match gO (generateMessages query context conversation_history) with
  | some t => .ok (pyStrip t)
  | none => .error "Error generating response"

/-- `"\n\n".join(f"[{i+1}] {chunk}" ...)` of `DocumentSearchTool.run`. -/
def numberChunks : Nat → List String → List String
  | _, [] => []
  | i, c :: cs => ("[" ++ toString (i + 1) ++ "] " ++ c) :: numberChunks (i + 1) cs

/-- `DocumentSearchTool.run`: search, then either the no-documents sentinel
with no sources, or the numbered chunks joined into one context string. -/
def tool_run (svc : String → Option (List ℚ)) (cache : EmbCache) (st : VSState)
    (threshold : ℚ) (top_k : Nat) (query : String) :
    Except String (String × List String) × EmbCache × List (List String) :=
  match get_relevant_chunks svc cache st threshold top_k query with
  | (.error e, c, calls) => (.error e, c, calls)
  | (.ok (chunks, sources), c, calls) =>
    if chunks.isEmpty then (.ok ("No relevant documents found.", []), c, calls)
    else (.ok (String.intercalate "\n\n" (numberChunks 0 chunks), sources), c, calls)

/-- The externally observable steps of one `AIAgent.execute` run, in program
order: session creation, context fetch, memory appends, and each external
call with its argument. -/
inductive AgentEvent where
  | createdSession (sid : String)
  | fetchedContext (sid ctx : String)
  | addedMessage (sid role content : String)
  | classifyCall (prompt : String)
  | searchCall (query : String)
  | generateCall (messages : List (String × String))
deriving DecidableEq, Repr

/-- The dict returned by `AIAgent.execute`. -/
structure ExecResult where
  answer : String
  sources : List String
  session_id : String
  classification : String
  used_rag : Bool
  num_sources : Nat
deriving DecidableEq, Repr

/-- The session-resolution step opening `AIAgent.execute`: a falsy id
(`None` or `""`) or an unknown/expired id leads to a fresh session; a live id
is kept (its `last_accessed` refreshed by the `get_session` probe). -/
def resolve_session (now : Nat) (session_id : Option String) (mem : MemState) :
    String × MemState × List AgentEvent :=
  match session_id with
  | none =>
    let c := create_session now mem
    (c.1, c.2, [AgentEvent.createdSession c.1])
  | some sid₀ =>
    if sid₀ = "" then
      let c := create_session now mem
      (c.1, c.2, [AgentEvent.createdSession c.1])
    else
      match (get_session now sid₀ mem).1 with
      | none =>
        let c := create_session now (get_session now sid₀ mem).2
        (c.1, c.2, [AgentEvent.createdSession c.1])
      | some _ => (sid₀, (get_session now sid₀ mem).2, [])

/-- `AIAgent.execute`: resolve or create the session, fetch the conversation
context, record the user turn, classify, then either retrieve-and-answer
(with the fixed fallback when no sources survive) or answer directly; on
success record the assistant turn.  A raised retrieval or generation error
propagates (the assistant turn is then never recorded). -/
def execute (cO : String → Option String)
    (gO : List (String × String) → Option String)
    (svc : String → Option (List ℚ)) (st : VSState) (threshold : ℚ) (top_k : Nat)
    (now : Nat) (query : String) (session_id : Option String)
    (mem : MemState) (ecache : EmbCache) :
    Except String ExecResult × MemState × EmbCache × List AgentEvent :=
  let resolved := resolve_session now session_id mem
  let sid := resolved.1
  let ctx := (get_conversation_context now sid 10 resolved.2.1).1
  let mem₂ := (get_conversation_context now sid 10 resolved.2.1).2
  let mem₃ := add_message now sid "user" query mem₂
  let cls := classify_query cO query ctx
  let ev :=
    resolved.2.2 ++
      [AgentEvent.fetchedContext sid ctx, AgentEvent.addedMessage sid "user" query,
        AgentEvent.classifyCall (classificationPrompt query ctx)]
  if cls.needs_rag then
    match tool_run svc ecache st threshold top_k query with
    | (.error e, c, _) => (.error e, mem₃, c, ev ++ [AgentEvent.searchCall query])
    | (.ok (context, sources), c, _) =>
      if sources.isEmpty then
        let mem₄ := add_message now sid "assistant" noInfoAnswer mem₃
        (.ok ⟨noInfoAnswer, sources, sid, cls.classification, true, sources.length⟩,
          mem₄, c,
          ev ++ [AgentEvent.searchCall query,
            AgentEvent.addedMessage sid "assistant" noInfoAnswer])
      else
        match generate_response gO query context ctx with
        | .error e =>
          (.error e, mem₃, c,
            ev ++ [AgentEvent.searchCall query,
              AgentEvent.generateCall (generateMessages query context ctx)])
        | .ok answer =>
          let mem₄ := add_message now sid "assistant" answer mem₃
          (.ok ⟨answer, sources, sid, cls.classification, true, sources.length⟩,
            mem₄, c,
            ev ++ [AgentEvent.searchCall query,
              AgentEvent.generateCall (generateMessages query context ctx),
              AgentEvent.addedMessage sid "assistant" answer])
  else
    match generate_response gO query "" ctx with
    | .error e =>
      (.error e, mem₃, ecache,
        ev ++ [AgentEvent.generateCall (generateMessages query "" ctx)])
    | .ok answer =>
      let mem₄ := add_message now sid "assistant" answer mem₃
      (.ok ⟨answer, [], sid, cls.classification, false, 0⟩, mem₄, ecache,
        ev ++ [AgentEvent.generateCall (generateMessages query "" ctx),
          AgentEvent.addedMessage sid "assistant" answer])

/-! ## Claims -/

/-- C8: if the external classification call fails, `classify_query` returns
the fail-open default `needs_rag = true` (classification `"DOCUMENT"`) rather
than propagating the failure. -/
theorem C8_classify_fails_open (cO : String → Option String) (query ctx : String)
    (h : cO (classificationPrompt query ctx) = none) :
    classify_query cO query ctx = ⟨true, "DOCUMENT"⟩ := by
  simp [classify_query, h]

theorem C8_classify_fails_open_witness :
    (fun _ : String => (none : Option String)) (classificationPrompt "What is 2+2?" "") = none ∧
    classify_query (fun _ => none) "What is 2+2?" "" = ⟨true, "DOCUMENT"⟩ :=
  ⟨rfl, C8_classify_fails_open (fun _ => none) "What is 2+2?" "" rfl⟩

/-- C4: `generate_embedding` is idempotent: if a call returns vector `v`, an
immediately repeated call with the identical text returns the identical
vector, leaves the cache unchanged, and issues no external request. -/
theorem C4_generate_embedding_idempotent (svc : String → Option (List ℚ))
    (cache : EmbCache) (text : String) (v : List ℚ)
    (h : (generate_embedding svc cache text).result = .ok v) :
    generate_embedding svc (generate_embedding svc cache text).cache text =
      ⟨.ok v, (generate_embedding svc cache text).cache, []⟩ := by
  unfold generate_embedding at *
  cases hl : List.lookup text cache with
  | some w =>
    simp [hl] at h ⊢
    simp [h]
  | none =>
    cases hs : svc text with
    | some w => simp [hl, hs] at h ⊢; simp [h]
    | none => simp [hl, hs] at h

theorem C4_generate_embedding_idempotent_witness :
    (generate_embedding (fun _ => some [1]) [] "hello").result = .ok [1] ∧
    generate_embedding (fun _ => some [1])
        (generate_embedding (fun _ => some [1]) [] "hello").cache "hello" =
      ⟨.ok [1], (generate_embedding (fun _ => some [1]) [] "hello").cache, []⟩ :=
  ⟨rfl, C4_generate_embedding_idempotent (fun _ => some [1]) [] "hello" [1] rfl⟩

/-- C3 counterexample: a batch whose group call succeeds stores nothing in the
cache — `generate_embeddings_batch` on `["a"]` succeeds (one embedding comes
back) yet leaves the cache empty, and a later single-text call for `"a"`
issues an external request instead of hitting the cache.  This refutes the
claim that every successful computation through the batch path is cached. -/
theorem C3_counterexample :
    (generate_embeddings_batch (fun _ => none) (fun _ => some [[1]]) [] ["a"] 16).1 = [[1]] ∧
    (generate_embeddings_batch (fun _ => none) (fun _ => some [[1]]) [] ["a"] 16).2.1 = [] ∧
    List.lookup "a"
      (generate_embeddings_batch (fun _ => none) (fun _ => some [[1]]) [] ["a"] 16).2.1 = none ∧
    (generate_embedding (fun _ => some [2])
      (generate_embeddings_batch (fun _ => none) (fun _ => some [[1]]) [] ["a"] 16).2.1
      "a").calls = [["a"]] := by
  refine ⟨?_, ?_, ?_, ?_⟩ <;>
    simp [generate_embeddings_batch, chunksOf, batchLoop, generate_embedding]

/-- C3 (amended): every embedding computed successfully through the
single-text path (`generate_embedding`, which is also the batch path's
per-item fallback) is stored in the cache under its exact text, so any later
single-text call for the same text is a cache hit that returns the stored
vector and issues no external request; texts embedded by a successful batch
group call are not written to the cache. -/
theorem C3_single_path_caches (svc : String → Option (List ℚ))
    (cache : EmbCache) (text : String) (v : List ℚ)
    (h : (generate_embedding svc cache text).result = .ok v) :
    List.lookup text (generate_embedding svc cache text).cache = some v ∧
    ∀ svc₂ : String → Option (List ℚ),
      generate_embedding svc₂ (generate_embedding svc cache text).cache text =
        ⟨.ok v, (generate_embedding svc cache text).cache, []⟩ := by
  unfold generate_embedding at *
  cases hl : List.lookup text cache with
  | some w =>
    simp [hl] at h ⊢
    simp [hl, h]
  | none =>
    cases hs : svc text with
    | some w =>
      simp [hl, hs] at h ⊢
      simp [h]
    | none => simp [hl, hs] at h

/-- Looking up the overwritten key after the map-replace step of `dictInsert`. -/
theorem lookup_map_replace_self (k : String) (v : Session) (d : List (String × Session)) :
    List.lookup k (d.map (fun p => if p.1 = k then (k, v) else p)) =
      (List.lookup k d).map (fun _ => v) := by
  induction d with
  | nil => rfl
  | cons p rest ih =>
    by_cases hk : p.1 = k
    · simp only [List.map_cons, if_pos hk]
      simp [List.lookup, hk]
    · have h1 : (k == p.1) = false := by
        simp only [beq_eq_false_iff_ne, ne_eq]
        exact fun he => hk he.symm
      simp only [List.map_cons, if_neg hk]
      simp [List.lookup, h1, ih]

/-- The map-replace step of `dictInsert` leaves other keys alone. -/
theorem lookup_map_replace_ne (k k' : String) (v : Session) (d : List (String × Session))
    (h : k' ≠ k) :
    List.lookup k' (d.map (fun p => if p.1 = k then (k, v) else p)) =
      List.lookup k' d := by
  induction d with
  | nil => rfl
  | cons p rest ih =>
    by_cases hk : p.1 = k
    · have h1 : (k' == k) = false := by simp [beq_eq_false_iff_ne, h]
      have h2 : (k' == p.1) = false := by rw [hk]; exact h1
      simp only [List.map_cons, if_pos hk]
      simp [List.lookup, h1, h2, ih]
    · simp only [List.map_cons, if_neg hk]
      cases hpk : (k' == p.1) with
      | true => simp [List.lookup, hpk]
      | false => simp [List.lookup, hpk, ih]

/-- Association-list lookup distributes over append. -/
theorem lookup_append_or (k : String) (d tail : List (String × Session)) :
    List.lookup k (d ++ tail) =
      (match List.lookup k d with
       | some w => some w
       | none => List.lookup k tail) := by
  induction d with
  | nil => rfl
  | cons p rest ih =>
    simp only [List.cons_append, List.lookup]
    cases k == p.1 <;> simp [ih]

/-- Looking up the key just written by `dictInsert` finds the written value. -/
theorem lookup_dictInsert_self (k : String) (v : Session) (d : List (String × Session)) :
    List.lookup k (dictInsert k v d) = some v := by
  unfold dictInsert
  cases hl : List.lookup k d with
  | some w => simp [hl, lookup_map_replace_self]
  | none => simp [hl, lookup_append_or, List.lookup]

/-- `dictInsert` leaves lookups of other keys unchanged. -/
theorem lookup_dictInsert_ne (k k' : String) (v : Session) (d : List (String × Session))
    (h : k' ≠ k) : List.lookup k' (dictInsert k v d) = List.lookup k' d := by
  unfold dictInsert
  cases hl : (List.lookup k d).isSome with
  | true => simp [hl, lookup_map_replace_ne k k' v d h]
  | false =>
    have h1 : (k' == k) = false := by simp [beq_eq_false_iff_ne, h]
    rw [if_neg (by simp [hl]), lookup_append_or]
    cases List.lookup k' d with
    | some w => rfl
    | none => simp [List.lookup, h1]

theorem C3_single_path_caches_witness :
    (generate_embedding (fun _ => some [1]) [] "hello").result = .ok [1] ∧
    List.lookup "hello" (generate_embedding (fun _ => some [1]) [] "hello").cache = some [1] ∧
    generate_embedding (fun _ => none)
        (generate_embedding (fun _ => some [1]) [] "hello").cache "hello" =
      ⟨.ok [1], (generate_embedding (fun _ => some [1]) [] "hello").cache, []⟩ :=
  ⟨rfl, (C3_single_path_caches (fun _ => some [1]) [] "hello" [1] rfl).1,
    (C3_single_path_caches (fun _ => some [1]) [] "hello" [1] rfl).2 (fun _ => none)⟩

/-- C10 counterexample: `add_message` on an *expired* session id does not
leave all state unchanged — the lazy deletion inside `get_session` removes
the expired session, shrinking the session map.  (Session `"s"` last accessed
at minute 0, timeout 30, call at minute 31.) -/
theorem C10_counterexample :
    add_message 31 "s" "user" "hi" ⟨[("s", ⟨[], 0, 0⟩)], 30, 0⟩ ≠
      (⟨[("s", ⟨[], 0, 0⟩)], 30, 0⟩ : MemState) ∧
    total_sessions (add_message 31 "s" "user" "hi" ⟨[("s", ⟨[], 0, 0⟩)], 30, 0⟩) = 0 := by
  refine ⟨?_, by decide⟩
  decide

/-- C10 (amended): `add_message` with an unknown or expired session id raises
no error, silently drops the message, and creates no session; with an unknown
id all state is unchanged, while with an expired id the one side effect is
that the expired session itself is deleted (lazy reclamation) — which is how
an assistant turn can be lost if the session expires between resolution and
recording. -/
theorem C10_add_message_unknown_or_expired (now : Nat) (sid role content : String)
    (m : MemState) :
    (List.lookup sid m.sessions = none → add_message now sid role content m = m) ∧
    (∀ s : Session, List.lookup sid m.sessions = some s →
      is_expired now m.timeout_minutes s = true →
      add_message now sid role content m = delete_session sid m) := by
  constructor
  · intro h
    simp [add_message, get_session, h]
  · intro s hs hexp
    simp [add_message, get_session, hs, hexp]

theorem C10_add_message_unknown_or_expired_witness :
    add_message 5 "x" "user" "hi" ⟨[], 30, 0⟩ = (⟨[], 30, 0⟩ : MemState) ∧
    add_message 31 "s" "user" "hi" ⟨[("s", ⟨[], 0, 0⟩)], 30, 0⟩ =
      delete_session "s" ⟨[("s", ⟨[], 0, 0⟩)], 30, 0⟩ :=
  ⟨(C10_add_message_unknown_or_expired 5 "x" "user" "hi" _).1 rfl,
   (C10_add_message_unknown_or_expired 31 "s" "user" "hi" _).2 ⟨[], 0, 0⟩ rfl rfl⟩

/-- C7 counterexample: for a session idle past the timeout, `get_session`
returns not-found — but because that very access already deleted the session,
the *subsequent* `cleanup_expired_sessions` removes zero sessions (not one)
and leaves the total count unchanged (it does not decrement it by one). -/
theorem C7_counterexample :
    (get_session 31 "s" ⟨[("s", ⟨[], 0, 0⟩)], 30, 0⟩).1 = none ∧
    cleanup_expired_sessions 31 (get_session 31 "s" ⟨[("s", ⟨[], 0, 0⟩)], 30, 0⟩).2 =
      (0, (get_session 31 "s" ⟨[("s", ⟨[], 0, 0⟩)], 30, 0⟩).2) := by
  exact ⟨rfl, rfl⟩

/-- Keys absent from an association list are untouched by the key filter. -/
theorem filter_ne_of_not_mem_keys (sid : String) (l : List (String × Session))
    (h : sid ∉ l.map Prod.fst) : l.filter (fun p => p.1 ≠ sid) = l := by
  induction l with
  | nil => rfl
  | cons p rest ih =>
    simp only [List.map_cons, List.mem_cons, not_or] at h
    have hp : (p.1 ≠ sid) := fun he => h.1 he.symm
    simp only [List.filter_cons, decide_eq_true_eq]
    rw [if_pos hp, ih h.2]

/-- With unique keys, filtering out one present key removes exactly one entry. -/
theorem filter_ne_key_length (sid : String) (l : List (String × Session))
    (hnd : (l.map Prod.fst).Nodup) (h : (List.lookup sid l).isSome) :
    (l.filter (fun p => p.1 ≠ sid)).length + 1 = l.length := by
  induction l with
  | nil => simp [List.lookup] at h
  | cons p rest ih =>
    simp only [List.map_cons, List.nodup_cons] at hnd
    by_cases hk : p.1 = sid
    · have hnotin : sid ∉ rest.map Prod.fst := hk ▸ hnd.1
      simp only [List.filter_cons, decide_eq_true_eq]
      rw [if_neg (by simp [hk]), filter_ne_of_not_mem_keys sid rest hnotin]
      simp
    · have hbeq : (sid == p.1) = false := by
        simp only [beq_eq_false_iff_ne, ne_eq]
        exact fun he => hk he.symm
      simp only [List.lookup, hbeq, cond_false] at h
      simp only [List.filter_cons, decide_eq_true_eq]
      rw [if_pos (fun he => hk he)]
      simpa using ih hnd.2 h

/-- C7 (amended): a session idle past the timeout returns not-found on
`get_session`, and that access itself deletes the session and decrements the
total count by one (lazy reclamation); a subsequent `cleanup_expired_sessions`
then removes zero further sessions (assuming no other session is expired) and
leaves the state as the access left it. -/
theorem C7_expired_get_then_cleanup (now : Nat) (sid : String) (s : Session)
    (m : MemState)
    (hnd : (m.sessions.map Prod.fst).Nodup)
    (hs : List.lookup sid m.sessions = some s)
    (hexp : is_expired now m.timeout_minutes s = true)
    (hother : ∀ p ∈ m.sessions, p.1 ≠ sid →
      is_expired now m.timeout_minutes p.2 = false) :
    (get_session now sid m).1 = none ∧
    total_sessions (get_session now sid m).2 + 1 = total_sessions m ∧
    cleanup_expired_sessions now (get_session now sid m).2 =
      (0, (get_session now sid m).2) := by
  have hg : get_session now sid m = (none, delete_session sid m) := by
    simp [get_session, hs, hexp]
  rw [hg]
  refine ⟨rfl, ?_, ?_⟩
  · exact filter_ne_key_length sid m.sessions hnd (by simp [hs])
  · have hnone : (delete_session sid m).sessions.filter
        (fun p => is_expired now (delete_session sid m).timeout_minutes p.2) = [] := by
      apply List.filter_eq_nil_iff.mpr
      intro p hp
      have hp' := List.mem_filter.mp hp
      have hne : p.1 ≠ sid := by simpa using hp'.2
      simp [delete_session, hother p hp'.1 hne]
    simp [cleanup_expired_sessions, hnone]

theorem C7_expired_get_then_cleanup_witness :
    (get_session 31 "s" ⟨[("s", ⟨[], 0, 0⟩), ("t", ⟨[], 0, 28⟩)], 30, 0⟩).1 = none ∧
    total_sessions (get_session 31 "s" ⟨[("s", ⟨[], 0, 0⟩), ("t", ⟨[], 0, 28⟩)], 30, 0⟩).2 + 1 =
      total_sessions ⟨[("s", ⟨[], 0, 0⟩), ("t", ⟨[], 0, 28⟩)], 30, 0⟩ ∧
    cleanup_expired_sessions 31
        (get_session 31 "s" ⟨[("s", ⟨[], 0, 0⟩), ("t", ⟨[], 0, 28⟩)], 30, 0⟩).2 =
      (0, (get_session 31 "s" ⟨[("s", ⟨[], 0, 0⟩), ("t", ⟨[], 0, 28⟩)], 30, 0⟩).2) :=
  C7_expired_get_then_cleanup 31 "s" ⟨[], 0, 0⟩ _ (by decide) rfl rfl (by decide)

/-- `specFirstSeen` keeps exactly the elements of its input. -/
theorem mem_specFirstSeen (y : String) (l : List String) :
    y ∈ specFirstSeen l ↔ y ∈ l := by
  induction l using specFirstSeen.induct with
  | case1 => simp [specFirstSeen]
  | case2 s rest ih =>
    simp only [specFirstSeen, List.mem_cons, ih, List.mem_filter]
    constructor
    · rintro (h | ⟨h1, _⟩)
      · exact Or.inl h
      · exact Or.inr h1
    · rintro (h | h1)
      · exact Or.inl h
      · by_cases hy : y = s
        · exact Or.inl hy
        · exact Or.inr ⟨h1, by simp [hy]⟩

/-- `specFirstSeen` is a subsequence of its input: surviving occurrences keep
their relative (first-seen) order. -/
theorem specFirstSeen_sublist (l : List String) :
    List.Sublist (specFirstSeen l) l := by
  induction l using specFirstSeen.induct with
  | case1 => simp [specFirstSeen]
  | case2 s rest ih =>
    rw [specFirstSeen]
    exact List.Sublist.cons₂ s (ih.trans (List.filter_sublist rest))

/-- `specFirstSeen` contains no duplicates. -/
theorem specFirstSeen_nodup (l : List String) : (specFirstSeen l).Nodup := by
  induction l using specFirstSeen.induct with
  | case1 => simp [specFirstSeen]
  | case2 s rest ih =>
    rw [specFirstSeen]
    refine List.nodup_cons.mpr ⟨?_, ih⟩
    intro hmem
    have := (mem_specFirstSeen s _).mp hmem
    simp [List.mem_filter] at this

/-- The `unique_sources` accumulator loop, run from any starting accumulator,
appends exactly the first-seen-order deduplication of the not-yet-seen input. -/
theorem sourceDedup_go (l : List String) :
    ∀ acc : List String,
      List.foldl (fun acc s => if s ∈ acc then acc else acc ++ [s]) acc l =
        acc ++ specFirstSeen (l.filter (fun y => y ∉ acc)) := by
  induction l with
  | nil => intro acc; simp [specFirstSeen]
  | cons s rest ih =>
    intro acc
    by_cases hs : s ∈ acc
    · rw [List.foldl_cons, if_pos hs, ih acc]
      have : (List.filter (fun y => decide (y ∉ acc)) (s :: rest)) =
          List.filter (fun y => decide (y ∉ acc)) rest := by
        rw [List.filter_cons]
        simp [hs]
      simp only [this]
    · rw [List.foldl_cons, if_neg hs, ih (acc ++ [s])]
      have hcons : List.filter (fun y => decide (y ∉ acc)) (s :: rest) =
          s :: List.filter (fun y => decide (y ∉ acc)) rest := by
        rw [List.filter_cons]
        simp [hs]
      rw [hcons, specFirstSeen]
      have hff : List.filter (fun y => decide (y ∉ acc ++ [s])) rest =
          List.filter (fun t => decide (t ≠ s))
            (List.filter (fun y => decide (y ∉ acc)) rest) := by
      -- both sides keep y iff y ∉ acc and y ≠ s
        rw [List.filter_filter]
        apply List.filter_congr
        intro y _
        by_cases h1 : y = s
        · simp [h1]
        · by_cases h2 : y ∈ acc <;> simp [h1, h2]
      rw [hff]
      simp

/-- The deduplication loop of `get_relevant_chunks` computes first-seen-order
deduplication. -/
theorem sourceDedup_eq_specFirstSeen (l : List String) :
    sourceDedup l = specFirstSeen l := by
  rw [sourceDedup, sourceDedup_go l []]
  have : List.filter (fun y => decide (y ∉ ([] : List String))) l = l := by
    apply List.filter_eq_self.mpr
    intro a _
    simp
  rw [this]
  simp

/-- C9: `get_relevant_chunks` deduplicates the source list in first-seen
order — the sources are exactly the distinct sources of the surviving search
results, without duplicates, in first-occurrence order (a subsequence of the
raw source sequence) — while the chunk list keeps every surviving result's
content, repeats included; e.g. sources `[A, B, A, C]` reduce to `[A, B, C]`. -/
theorem C9_dedup_first_seen (svc : String → Option (List ℚ)) (cache : EmbCache)
    (st : VSState) (threshold : ℚ) (top_k : Nat) (query : String)
    (chunks sources : List String)
    (h : (get_relevant_chunks svc cache st threshold top_k query).1 =
      .ok (chunks, sources)) :
    (∃ results, (vsSearch svc cache st threshold top_k query).1 = .ok results ∧
      chunks = results.map (·.doc.content) ∧
      sources = specFirstSeen (results.map (·.doc.source)) ∧
      sources.Nodup ∧
      List.Sublist sources (results.map (·.doc.source)) ∧
      (∀ s, s ∈ sources ↔ s ∈ results.map (·.doc.source))) ∧
    sourceDedup ["A", "B", "A", "C"] = ["A", "B", "C"] := by
  constructor
  · unfold get_relevant_chunks at h
    rcases hv : vsSearch svc cache st threshold top_k query with ⟨res, c, calls⟩
    rw [hv] at h
    cases res with
    | error e => simp at h
    | ok results =>
      simp only [Except.ok.injEq, Prod.mk.injEq] at h
      refine ⟨results, by simp, h.1.symm, ?_⟩
      have hsrc : sources = sourceDedup (results.map (·.doc.source)) := h.2.symm
      rw [hsrc, sourceDedup_eq_specFirstSeen]
      exact ⟨rfl, specFirstSeen_nodup _, specFirstSeen_sublist _,
        fun s => mem_specFirstSeen s _⟩
  · decide

/-- The squared distance of the zero vector to itself vanishes. -/
theorem sqDist_replicate_zero (n : Nat) :
    sqDist (List.replicate n (0 : ℚ)) (List.replicate n 0) = 0 := by
  induction n with
  | zero => simp [sqDist]
  | succ m ih => simp [List.replicate_succ, sqDist, ih]

/-- C1 counterexample: an index holding `n = 1` chunk searched with `k = 3`
returns zero results, not exactly one — the similarity filter discards the
lone stored chunk (distance 1, similarity `1/2`, below the configured
threshold `0.7`), and no error is raised.  This refutes "returns exactly `n`
results" for `n < k`. -/
theorem C1_counterexample :
    (vsSearch (fun _ => some (List.replicate 1536 0)) []
        ⟨[⟨(1 : ℚ) :: List.replicate 1535 0,
          ⟨"Leave policy grants 15 days annually.", "leave.txt"⟩⟩]⟩
        (7/10) 3 "What is the leave policy?").1 = .ok [] ∧
    ([⟨(1 : ℚ) :: List.replicate 1535 0,
      ⟨"Leave policy grants 15 days annually.", "leave.txt"⟩⟩] : List VSEntry).length = 1 ∧
    1 < 3 := by
  have hd : sqDist (List.replicate 1536 (0 : ℚ)) ((1 : ℚ) :: List.replicate 1535 0) = 1 := by
    rw [show (1536 : Nat) = 1535 + 1 from rfl, List.replicate_succ]
    rw [sqDist, sqDist_replicate_zero]
    norm_num
  refine ⟨?_, rfl, by norm_num⟩
  norm_num [vsSearch, generate_embedding, searchCore, faissTopK, scoreAll, hd,
    List.insertionSort, List.orderedInsert, searchLoop, pyGet, floatMax]

/-- Every scored pair carries a concrete in-range insertion index. -/
theorem scoreAll_index_bound (q : List ℚ) :
    ∀ (vs : List (List ℚ)) (i : Nat) (p : ℚ × Int), p ∈ scoreAll q i vs →
      ∃ j : Nat, p.2 = (j : Int) ∧ i ≤ j ∧ j < i + vs.length := by
  intro vs
  induction vs with
  | nil => intro i p hp; simp [scoreAll] at hp
  | cons v rest ih =>
    intro i p hp
    rw [scoreAll] at hp
    rcases List.mem_cons.mp hp with h | h
    · exact ⟨i, by rw [h], le_refl i, by simp⟩
    · obtain ⟨j, hj, hij, hjlt⟩ := ih (i + 1) p h
      exact ⟨j, hj, by omega, by simp at hjlt ⊢; omega⟩

/-- The score list is as long as the vector list. -/
theorem scoreAll_length (q : List ℚ) :
    ∀ (vs : List (List ℚ)) (i : Nat), (scoreAll q i vs).length = vs.length := by
  intro vs
  induction vs with
  | nil => intro i; rfl
  | cons v rest ih => intro i; simp [scoreAll, ih]

/-- Counting scored pairs by a distance predicate counts the vectors. -/
theorem scoreAll_countP (q : List ℚ) (t : ℚ) :
    ∀ (vs : List (List ℚ)) (i : Nat),
      (scoreAll q i vs).countP (fun p => t ≤ 1 / (1 + p.1)) =
        vs.countP (fun v => t ≤ 1 / (1 + sqDist q v)) := by
  intro vs
  induction vs with
  | nil => intro i; rfl
  | cons v rest ih =>
    intro i
    simp only [scoreAll, List.countP_cons, ih]

/-- On a list of score pairs whose indices are all in range, the filtering
loop never errors and returns one result per pair passing the threshold. -/
theorem searchLoop_all_valid (docs : List DocChunk) (t : ℚ) :
    ∀ (l : List (ℚ × Int)) (i : Nat),
      (∀ p ∈ l, ∃ j : Nat, p.2 = (j : Int) ∧ j < docs.length) →
      ∃ r, searchLoop docs t i l = .ok r ∧
        r.length = l.countP (fun p => t ≤ 1 / (1 + p.1)) := by
  intro l
  induction l with
  | nil => intro i _; exact ⟨[], rfl, rfl⟩
  | cons p rest ih =>
    intro i hvalid
    obtain ⟨j, hj, hjlt⟩ := hvalid p (List.mem_cons_self p rest)
    obtain ⟨r, hr, hlen⟩ := ih (i + 1) (fun q hq => hvalid q (List.mem_cons_of_mem p hq))
    obtain ⟨dist, idx⟩ := p
    simp only at hj
    have hidx : idx < (docs.length : Int) := by
      rw [hj]; exact_mod_cast hjlt
    by_cases hts : t ≤ 1 / (1 + dist)
    · have hget : pyGet docs idx = some (docs.get ⟨j, hjlt⟩) := by
        rw [pyGet, if_pos (by rw [hj]; exact Int.ofNat_nonneg j), hj]
        simp [List.getElem?_eq_getElem hjlt]
      refine ⟨⟨docs.get ⟨j, hjlt⟩, 1 / (1 + dist), i + 1⟩ :: r, ?_, ?_⟩
      · rw [searchLoop, if_pos hidx]
        simp only [if_pos hts, hget, hr]
      · rw [List.countP_cons, decide_eq_true hts]
        simp [hlen]
    · refine ⟨r, ?_, ?_⟩
      · rw [searchLoop, if_pos hidx]
        simp only [if_neg hts]
        exact hr
      · rw [List.countP_cons, decide_eq_false hts]
        simp [hlen]

/-- The filtering loop distributes over list append (with the enumerate
counter advanced by the length of the first part). -/
theorem searchLoop_append (docs : List DocChunk) (t : ℚ) :
    ∀ (l₁ : List (ℚ × Int)) (l₂ : List (ℚ × Int)) (i : Nat) (r₁ r₂ : List SearchResult),
      searchLoop docs t i l₁ = .ok r₁ →
      searchLoop docs t (i + l₁.length) l₂ = .ok r₂ →
      searchLoop docs t i (l₁ ++ l₂) = .ok (r₁ ++ r₂) := by
  intro l₁
  induction l₁ with
  | nil =>
    intro l₂ i r₁ r₂ h₁ h₂
    simp only [searchLoop, Except.ok.injEq] at h₁
    simp only [List.length_nil, Nat.add_zero] at h₂
    rw [← h₁]
    simpa using h₂
  | cons p rest ih =>
    intro l₂ i r₁ r₂ h₁ h₂
    obtain ⟨dist, idx⟩ := p
    have hlen : i + 1 + rest.length = i + (rest.length + 1) := by omega
    simp only [List.length_cons] at h₂
    rw [searchLoop] at h₁
    rw [List.cons_append, searchLoop]
    by_cases hidx : idx < (docs.length : Int)
    · rw [if_pos hidx] at h₁ ⊢
      by_cases hts : t ≤ 1 / (1 + dist)
      · simp only [if_pos hts] at h₁ ⊢
        cases hg : pyGet docs idx with
        | none => rw [hg] at h₁; simp at h₁
        | some d =>
          rw [hg] at h₁
          cases hr : searchLoop docs t (i + 1) rest with
          | error e => rw [hr] at h₁; simp at h₁
          | ok tail =>
            rw [hr] at h₁
            simp only [Except.ok.injEq] at h₁
            have := ih l₂ (i + 1) tail r₂ hr (by rw [hlen]; exact h₂)
            rw [this, ← h₁]
            simp
      · simp only [if_neg hts] at h₁ ⊢
        exact ih l₂ (i + 1) r₁ r₂ h₁ (by rw [hlen]; exact h₂)
    · rw [if_neg hidx] at h₁ ⊢
      exact ih l₂ (i + 1) r₁ r₂ h₁ (by rw [hlen]; exact h₂)

/-- FAISS padding entries (distance `floatMax`, index `-1`) all fall below
any threshold exceeding `1/(1 + floatMax)`, so the loop skips them. -/
theorem searchLoop_pads (docs : List DocChunk) (t : ℚ) (ht : ¬ t ≤ 1 / (1 + floatMax)) :
    ∀ (m : Nat) (i : Nat),
      searchLoop docs t i (List.replicate m (floatMax, -1)) = .ok [] := by
  intro m
  induction m with
  | zero => intro i; rfl
  | succ m' ih =>
    intro i
    rw [List.replicate_succ, searchLoop]
    have hidx : (-1 : Int) < (docs.length : Int) := by
      have : (0 : Int) ≤ (docs.length : Int) := Int.ofNat_nonneg _
      omega
    rw [if_pos hidx]
    simp only [if_neg ht]
    exact ih (i + 1)

/-- C1 (amended): `search(q, k)` on an index of size `n < k` never errors
(provided the query embedding call itself succeeds) and returns exactly the
stored chunks whose similarity meets the threshold — hence at most `n`
results, but not necessarily exactly `n`, since the threshold filter may
discard stored chunks.  (The threshold hypothesis `1/(1 + floatMax) < t`
holds for any realistic threshold, in particular the configured `0.7`, and
makes the FAISS padding entries fail the filter.) -/
theorem C1_search_small_index (svc : String → Option (List ℚ)) (cache : EmbCache)
    (st : VSState) (qv : List ℚ) (t : ℚ) (top_k : Nat) (query : String)
    (hk : st.entries.length < top_k)
    (ht : 1 / (1 + floatMax) < t)
    (he : (generate_embedding svc cache query).result = .ok qv) :
    ∃ r, (vsSearch svc cache st t top_k query).1 = .ok r ∧
      r.length = st.entries.countP (fun e => t ≤ 1 / (1 + sqDist qv e.vec)) ∧
      r.length ≤ st.entries.length := by
  by_cases hemp : st.entries.isEmpty
  · have : st.entries = [] := List.isEmpty_iff.mp hemp
    refine ⟨[], ?_, ?_, ?_⟩ <;> simp [vsSearch, hemp, this]
  · unfold vsSearch
    rw [if_neg hemp]
    rcases hg : generate_embedding svc cache query with ⟨res, c, calls⟩
    rw [hg] at he
    simp only at he
    subst he
    simp only [searchCore, faissTopK]
    have hperm := List.perm_insertionSort distLE (scoreAll qv 0 (st.entries.map (·.vec)))
    have hslen : (List.insertionSort distLE (scoreAll qv 0 (st.entries.map (·.vec)))).length =
        st.entries.length := by
      rw [hperm.length_eq, scoreAll_length, List.length_map]
    have htake : (List.insertionSort distLE (scoreAll qv 0 (st.entries.map (·.vec)))).take top_k =
        List.insertionSort distLE (scoreAll qv 0 (st.entries.map (·.vec))) :=
      List.take_of_length_le (by rw [hslen]; exact le_of_lt hk)
    rw [htake]
    have hvalid : ∀ p ∈ List.insertionSort distLE (scoreAll qv 0 (st.entries.map (·.vec))),
        ∃ j : Nat, p.2 = (j : Int) ∧ j < (st.entries.map (·.doc)).length := by
      intro p hp
      have hp' : p ∈ scoreAll qv 0 (st.entries.map (·.vec)) := hperm.mem_iff.mp hp
      obtain ⟨j, hj, _, hjlt⟩ := scoreAll_index_bound qv (st.entries.map (·.vec)) 0 p hp'
      refine ⟨j, hj, ?_⟩
      simpa using hjlt
    obtain ⟨r, hr, hlen⟩ := searchLoop_all_valid (st.entries.map (·.doc)) t
      (List.insertionSort distLE (scoreAll qv 0 (st.entries.map (·.vec)))) 0 hvalid
    have hpads := searchLoop_pads (st.entries.map (·.doc)) t (not_le.mpr ht)
      (top_k - (List.insertionSort distLE (scoreAll qv 0 (st.entries.map (·.vec)))).length)
      (0 + (List.insertionSort distLE (scoreAll qv 0 (st.entries.map (·.vec)))).length)
    have happ := searchLoop_append (st.entries.map (·.doc)) t
      (List.insertionSort distLE (scoreAll qv 0 (st.entries.map (·.vec))))
      (List.replicate (top_k - (List.insertionSort distLE
        (scoreAll qv 0 (st.entries.map (·.vec)))).length) (floatMax, -1))
      0 r [] hr hpads
    refine ⟨r, by rw [happ, List.append_nil], ?_, ?_⟩
    · rw [hlen, hperm.countP_eq, scoreAll_countP]
      rw [List.countP_map]
      rfl
    · rw [hlen, hperm.countP_eq]
      calc (scoreAll qv 0 (st.entries.map (·.vec))).countP _ ≤
          (scoreAll qv 0 (st.entries.map (·.vec))).length := List.countP_le_length _
        _ = st.entries.length := by rw [scoreAll_length, List.length_map]

theorem C1_search_small_index_witness :
    (1 : Nat) < 3 ∧ 1 / (1 + floatMax) < (7 : ℚ)/10 ∧
    (generate_embedding (fun _ => some [0]) [] "q").result = .ok [0] ∧
    (∃ r, (vsSearch (fun _ => some [0]) [] ⟨[⟨[1], ⟨"c", "s"⟩⟩]⟩ (7/10) 3 "q").1 = .ok r ∧
      r.length = ([⟨[1], ⟨"c", "s"⟩⟩] : List VSEntry).countP
        (fun e => (7 : ℚ)/10 ≤ 1 / (1 + sqDist [0] e.vec)) ∧
      r.length ≤ ([⟨[1], ⟨"c", "s"⟩⟩] : List VSEntry).length) :=
  ⟨by norm_num, by rw [floatMax]; norm_num, rfl,
    C1_search_small_index (fun _ => some [0]) [] ⟨[⟨[1], ⟨"c", "s"⟩⟩]⟩ [0] (7/10) 3 "q"
      (by norm_num) (by rw [floatMax]; norm_num) rfl⟩

/-- Raising the threshold can only thin the results of the filtering loop:
whatever the higher threshold keeps, the lower threshold also keeps, in the
same order and with the same similarity and rank fields. -/
theorem searchLoop_mono (docs : List DocChunk) (t₁ t₂ : ℚ) (h : t₁ ≤ t₂) :
    ∀ (i : Nat) (l : List (ℚ × Int)) (r₁ r₂ : List SearchResult),
      searchLoop docs t₁ i l = .ok r₁ → searchLoop docs t₂ i l = .ok r₂ →
      List.Sublist r₂ r₁ := by
  intro i l
  induction l generalizing i with
  | nil =>
    intro r₁ r₂ h₁ h₂
    simp only [searchLoop, Except.ok.injEq] at h₁ h₂
    rw [← h₁, ← h₂]
  | cons p rest ih =>
    intro r₁ r₂ h₁ h₂
    obtain ⟨dist, idx⟩ := p
    simp only [searchLoop] at h₁ h₂
    by_cases hidx : idx < (docs.length : Int)
    · rw [if_pos hidx] at h₁ h₂
      by_cases ht2 : t₂ ≤ 1 / (1 + dist)
      · have ht1 : t₁ ≤ 1 / (1 + dist) := le_trans h ht2
        rw [if_pos ht1] at h₁
        rw [if_pos ht2] at h₂
        cases hg : pyGet docs idx with
        | none => rw [hg] at h₁; simp at h₁
        | some d =>
          rw [hg] at h₁ h₂
          cases hr1 : searchLoop docs t₁ (i + 1) rest with
          | error e => rw [hr1] at h₁; simp at h₁
          | ok tail₁ =>
            cases hr2 : searchLoop docs t₂ (i + 1) rest with
            | error e => rw [hr2] at h₂; simp at h₂
            | ok tail₂ =>
              rw [hr1] at h₁
              rw [hr2] at h₂
              simp only [Except.ok.injEq] at h₁ h₂
              rw [← h₁, ← h₂]
              exact List.Sublist.cons₂ _ (ih (i + 1) tail₁ tail₂ hr1 hr2)
      · rw [if_neg ht2] at h₂
        by_cases ht1 : t₁ ≤ 1 / (1 + dist)
        · rw [if_pos ht1] at h₁
          cases hg : pyGet docs idx with
          | none => rw [hg] at h₁; simp at h₁
          | some d =>
            rw [hg] at h₁
            cases hr1 : searchLoop docs t₁ (i + 1) rest with
            | error e => rw [hr1] at h₁; simp at h₁
            | ok tail₁ =>
              rw [hr1] at h₁
              simp only [Except.ok.injEq] at h₁
              rw [← h₁]
              exact List.Sublist.cons _ (ih (i + 1) tail₁ r₂ hr1 h₂)
        · rw [if_neg ht1] at h₁
          exact ih (i + 1) r₁ r₂ h₁ h₂
    · rw [if_neg hidx] at h₁ h₂
      exact ih (i + 1) r₁ r₂ h₁ h₂

/-- C2: for a fixed query, index and cache, raising `similarity_threshold`
never grows the result set of `search`: the higher-threshold results are a
subsequence of the lower-threshold results (so in particular a subset, and
the result count never increases). -/
theorem C2_threshold_monotone (svc : String → Option (List ℚ)) (cache : EmbCache)
    (st : VSState) (top_k : Nat) (query : String) (t₁ t₂ : ℚ)
    (r₁ r₂ : List SearchResult)
    (h : t₁ ≤ t₂)
    (h₁ : (vsSearch svc cache st t₁ top_k query).1 = .ok r₁)
    (h₂ : (vsSearch svc cache st t₂ top_k query).1 = .ok r₂) :
    List.Sublist r₂ r₁ ∧ r₂.length ≤ r₁.length := by
  unfold vsSearch at h₁ h₂
  by_cases he : st.entries.isEmpty
  · rw [if_pos he] at h₁ h₂
    simp only [Except.ok.injEq] at h₁ h₂
    rw [← h₁, ← h₂]
    exact ⟨List.Sublist.refl _, le_refl _⟩
  · rw [if_neg he] at h₁ h₂
    rcases hg : generate_embedding svc cache query with ⟨res, c, calls⟩
    rw [hg] at h₁ h₂
    cases res with
    | error e => simp at h₁
    | ok qv =>
      simp only at h₁ h₂
      unfold searchCore at h₁ h₂
      have hsub := searchLoop_mono (st.entries.map (·.doc)) t₁ t₂ h 0
        (faissTopK (st.entries.map (·.vec)) qv top_k) r₁ r₂ h₁ h₂
      exact ⟨hsub, hsub.length_le⟩

theorem C2_threshold_monotone_witness :
    (1 : ℚ)/2 ≤ 7/10 ∧
    (vsSearch (fun _ => some [0]) [] ⟨[⟨[0], ⟨"c", "s"⟩⟩]⟩ (1/2) 3 "q").1 =
      .ok [⟨⟨"c", "s"⟩, 1, 1⟩] ∧
    (vsSearch (fun _ => some [0]) [] ⟨[⟨[0], ⟨"c", "s"⟩⟩]⟩ (7/10) 3 "q").1 =
      .ok [⟨⟨"c", "s"⟩, 1, 1⟩] ∧
    (List.Sublist [(⟨⟨"c", "s"⟩, 1, 1⟩ : SearchResult)] [⟨⟨"c", "s"⟩, 1, 1⟩] ∧
      ([(⟨⟨"c", "s"⟩, 1, 1⟩ : SearchResult)]).length ≤
        ([(⟨⟨"c", "s"⟩, 1, 1⟩ : SearchResult)]).length) := by
  have e₁ : (vsSearch (fun _ => some [0]) [] ⟨[⟨[0], ⟨"c", "s"⟩⟩]⟩ (1/2) 3 "q").1 =
      .ok [⟨⟨"c", "s"⟩, 1, 1⟩] := by
    norm_num [vsSearch, generate_embedding, searchCore, faissTopK, scoreAll, sqDist,
      List.insertionSort, List.orderedInsert, searchLoop, pyGet, floatMax]
  have e₂ : (vsSearch (fun _ => some [0]) [] ⟨[⟨[0], ⟨"c", "s"⟩⟩]⟩ (7/10) 3 "q").1 =
      .ok [⟨⟨"c", "s"⟩, 1, 1⟩] := by
    norm_num [vsSearch, generate_embedding, searchCore, faissTopK, scoreAll, sqDist,
      List.insertionSort, List.orderedInsert, searchLoop, pyGet, floatMax]
  exact ⟨by norm_num, e₁, e₂,
    C2_threshold_monotone (fun _ => some [0]) [] ⟨[⟨[0], ⟨"c", "s"⟩⟩]⟩ 3 "q"
      (1/2) (7/10) [⟨⟨"c", "s"⟩, 1, 1⟩] [⟨⟨"c", "s"⟩, 1, 1⟩] (by norm_num) e₁ e₂⟩

/-- A live session in `get_session`: refresh `last_accessed` and write back. -/
theorem get_session_found (now : Nat) (sid : String) (m : MemState) (s : Session)
    (hl : List.lookup sid m.sessions = some s)
    (hexp : is_expired now m.timeout_minutes s = false) :
    get_session now sid m =
      (some { s with last_accessed := now },
       { m with sessions := dictInsert sid { s with last_accessed := now } m.sessions }) := by
  simp [get_session, hl, hexp]

/-- A freshly touched session is never expired. -/
theorem is_expired_fresh (now tm : Nat) (msgs : List PyMessage) (ca : Nat) :
    is_expired now tm ⟨msgs, ca, now⟩ = false := by
  simp [is_expired]

/-- `add_message` on a live session: the timestamped entry is appended, the
idle timer refreshed, and nothing else changes. -/
theorem add_message_found (now : Nat) (sid role content : String) (m : MemState)
    (s : Session)
    (hl : List.lookup sid m.sessions = some s)
    (hexp : is_expired now m.timeout_minutes s = false) :
    add_message now sid role content m =
      { m with sessions :=
          (dictInsert sid ⟨s.messages ++ [⟨role, content, now⟩], s.created_at, now⟩
            (dictInsert sid { s with last_accessed := now } m.sessions)) } := by
  rw [add_message, get_session_found now sid m s hl hexp]

/-- `get_conversation_context` on a live session (with a non-zero window):
the last `k` messages formatted, the idle timer refreshed. -/
theorem get_conversation_context_found (now : Nat) (sid : String) (k : Nat)
    (m : MemState) (s : Session)
    (hk : k ≠ 0)
    (hl : List.lookup sid m.sessions = some s)
    (hexp : is_expired now m.timeout_minutes s = false) :
    get_conversation_context now sid k m =
      (ctxFormat (s.messages.drop (s.messages.length - k)),
       { m with sessions := dictInsert sid { s with last_accessed := now } m.sessions }) := by
  rw [get_conversation_context, get_messages, get_session_found now sid m s hl hexp]
  simp [hk]

/-- `resolve_session` with no supplied id creates a fresh empty session. -/
theorem resolve_session_none (now : Nat) (mem : MemState) :
    resolve_session now none mem =
      ("session-" ++ toString mem.counter,
       { mem with
          sessions := (dictInsert ("session-" ++ toString mem.counter) ⟨[], now, now⟩
            mem.sessions),
          counter := mem.counter + 1 },
       [AgentEvent.createdSession ("session-" ++ toString mem.counter)]) := rfl

/-- `resolve_session` with a live non-empty id keeps the id (refreshing the
session) and emits no creation event. -/
theorem resolve_session_found (now : Nat) (sid : String) (mem : MemState) (s : Session)
    (h0 : sid ≠ "")
    (hl : List.lookup sid mem.sessions = some s)
    (hexp : is_expired now mem.timeout_minutes s = false) :
    resolve_session now (some sid) mem =
      (sid,
       { mem with sessions := dictInsert sid { s with last_accessed := now } mem.sessions },
       []) := by
  rw [resolve_session]
  simp only [if_neg h0, get_session_found now sid mem s hl hexp]

/-- Session resolution emits at most a single session-creation event. -/
theorem resolve_session_events (now : Nat) (session_id : Option String) (mem : MemState) :
    (resolve_session now session_id mem).2.2 = [] ∨
    ∃ s, (resolve_session now session_id mem).2.2 = [AgentEvent.createdSession s] := by
  cases session_id with
  | none => exact Or.inr ⟨_, rfl⟩
  | some sid₀ =>
    by_cases h0 : sid₀ = ""
    · subst h0
      exact Or.inr ⟨_, rfl⟩
    · cases hg : (get_session now sid₀ mem).1 with
      | none =>
        refine Or.inr ⟨(create_session now (get_session now sid₀ mem).2).1, ?_⟩
        simp [resolve_session, h0, hg]
      | some s =>
        refine Or.inl ?_
        simp [resolve_session, h0, hg]

/-- Shape of every `execute` trace: the resolution events, then the context
fetch, then the user-turn append, then the classification call whose prompt
carries that same fetched context — in that order — followed by a tail in
which any generation call also carries that same fetched context as its
conversation history. -/
theorem execute_trace_shape (cO : String → Option String)
    (gO : List (String × String) → Option String) (svc : String → Option (List ℚ))
    (st : VSState) (t : ℚ) (k : Nat) (now : Nat) (query : String)
    (session_id : Option String) (mem : MemState) (ecache : EmbCache) :
    ∃ tail,
      (execute cO gO svc st t k now query session_id mem ecache).2.2.2 =
        (resolve_session now session_id mem).2.2 ++
        (AgentEvent.fetchedContext (resolve_session now session_id mem).1
            (get_conversation_context now (resolve_session now session_id mem).1 10
              (resolve_session now session_id mem).2.1).1 ::
         AgentEvent.addedMessage (resolve_session now session_id mem).1 "user" query ::
         AgentEvent.classifyCall (classificationPrompt query
            (get_conversation_context now (resolve_session now session_id mem).1 10
              (resolve_session now session_id mem).2.1).1) :: tail) ∧
      ∀ msgs, AgentEvent.generateCall msgs ∈ tail →
        ∃ c2, msgs = generateMessages query c2
          (get_conversation_context now (resolve_session now session_id mem).1 10
            (resolve_session now session_id mem).2.1).1 := by
  simp only [execute]
  by_cases hb : (classify_query cO query
      (get_conversation_context now (resolve_session now session_id mem).1 10
        (resolve_session now session_id mem).2.1).1).needs_rag = true
  · rw [if_pos hb]
    rcases htr : tool_run svc ecache st t k query with ⟨res, c₂, cl₂⟩
    cases res with
    | error e =>
      refine ⟨[AgentEvent.searchCall query], by simp, ?_⟩
      intro msgs hmem
      simp at hmem
    | ok v =>
      obtain ⟨ctxt, srcs⟩ := v
      by_cases hse : srcs.isEmpty = true
      · refine ⟨[AgentEvent.searchCall query,
          AgentEvent.addedMessage (resolve_session now session_id mem).1 "assistant"
            noInfoAnswer], by simp [hse], ?_⟩
        intro msgs hmem
        simp at hmem
      · cases hgr : generate_response gO query ctxt
            (get_conversation_context now (resolve_session now session_id mem).1 10
              (resolve_session now session_id mem).2.1).1 with
        | error e =>
          refine ⟨[AgentEvent.searchCall query,
            AgentEvent.generateCall (generateMessages query ctxt
              (get_conversation_context now (resolve_session now session_id mem).1 10
                (resolve_session now session_id mem).2.1).1)], by simp [hse, hgr], ?_⟩
          intro msgs hmem
          simp at hmem
          exact ⟨ctxt, hmem⟩
        | ok answer =>
          refine ⟨[AgentEvent.searchCall query,
            AgentEvent.generateCall (generateMessages query ctxt
              (get_conversation_context now (resolve_session now session_id mem).1 10
                (resolve_session now session_id mem).2.1).1),
            AgentEvent.addedMessage (resolve_session now session_id mem).1 "assistant"
              answer], by simp [hse, hgr], ?_⟩
          intro msgs hmem
          simp at hmem
          exact ⟨ctxt, hmem⟩
  · rw [if_neg hb]
    cases hgr : generate_response gO query ""
        (get_conversation_context now (resolve_session now session_id mem).1 10
          (resolve_session now session_id mem).2.1).1 with
    | error e =>
      refine ⟨[AgentEvent.generateCall (generateMessages query ""
        (get_conversation_context now (resolve_session now session_id mem).1 10
          (resolve_session now session_id mem).2.1).1)], by simp [hgr], ?_⟩
      intro msgs hmem
      simp at hmem
      exact ⟨"", hmem⟩
    | ok answer =>
      refine ⟨[AgentEvent.generateCall (generateMessages query ""
        (get_conversation_context now (resolve_session now session_id mem).1 10
          (resolve_session now session_id mem).2.1).1),
        AgentEvent.addedMessage (resolve_session now session_id mem).1 "assistant"
          answer], by simp [hgr], ?_⟩
      intro msgs hmem
      simp at hmem
      exact ⟨"", hmem⟩

/-- When `execute` succeeds, the returned session id is the resolved one and
the final memory is exactly: resolve, fetch context (refreshing), append the
user turn, then append the assistant turn carrying the returned answer. -/
theorem execute_ok_memory (cO : String → Option String)
    (gO : List (String × String) → Option String) (svc : String → Option (List ℚ))
    (st : VSState) (t : ℚ) (k : Nat) (now : Nat) (query : String)
    (session_id : Option String) (mem : MemState) (ecache : EmbCache)
    (r : ExecResult) (mem' : MemState) (ec' : EmbCache) (tr : List AgentEvent)
    (h : execute cO gO svc st t k now query session_id mem ecache = (.ok r, mem', ec', tr)) :
    r.session_id = (resolve_session now session_id mem).1 ∧
    mem' = add_message now (resolve_session now session_id mem).1 "assistant" r.answer
      (add_message now (resolve_session now session_id mem).1 "user" query
        (get_conversation_context now (resolve_session now session_id mem).1 10
          (resolve_session now session_id mem).2.1).2) := by
  simp only [execute] at h
  by_cases hb : (classify_query cO query
      (get_conversation_context now (resolve_session now session_id mem).1 10
        (resolve_session now session_id mem).2.1).1).needs_rag = true
  · rw [if_pos hb] at h
    rcases htr : tool_run svc ecache st t k query with ⟨res, c₂, cl₂⟩
    rw [htr] at h
    cases res with
    | error e => simp at h
    | ok v =>
      obtain ⟨ctxt, srcs⟩ := v
      by_cases hse : srcs.isEmpty = true
      · simp only [hse, if_true] at h
        simp only [Prod.mk.injEq, Except.ok.injEq] at h
        refine ⟨?_, ?_⟩
        · rw [← h.1]
        · rw [← h.2.1, ← h.1]
      · simp only [hse] at h
        rw [if_neg Bool.false_ne_true] at h
        cases hgr : generate_response gO query ctxt
            (get_conversation_context now (resolve_session now session_id mem).1 10
              (resolve_session now session_id mem).2.1).1 with
        | error e => rw [hgr] at h; simp at h
        | ok answer =>
          rw [hgr] at h
          simp only [Prod.mk.injEq, Except.ok.injEq] at h
          refine ⟨?_, ?_⟩
          · rw [← h.1]
          · rw [← h.2.1, ← h.1]
  · rw [if_neg hb] at h
    cases hgr : generate_response gO query ""
        (get_conversation_context now (resolve_session now session_id mem).1 10
          (resolve_session now session_id mem).2.1).1 with
    | error e => rw [hgr] at h; simp at h
    | ok answer =>
      rw [hgr] at h
      simp only [Prod.mk.injEq, Except.ok.injEq] at h
      refine ⟨?_, ?_⟩
      · rw [← h.1]
      · rw [← h.2.1, ← h.1]

/-- `get_session` never changes the configured timeout. -/
theorem get_session_timeout (now : Nat) (sid : String) (m : MemState) :
    (get_session now sid m).2.timeout_minutes = m.timeout_minutes := by
  rw [get_session]
  cases List.lookup sid m.sessions with
  | none => rfl
  | some s =>
    by_cases he : is_expired now m.timeout_minutes s = true
    · simp [he, delete_session]
    · simp [he]

/-- `add_message` never changes the configured timeout. -/
theorem add_message_timeout (now : Nat) (sid role content : String) (m : MemState) :
    (add_message now sid role content m).timeout_minutes = m.timeout_minutes := by
  rw [add_message]
  cases (get_session now sid m).1 with
  | none => exact get_session_timeout now sid m
  | some s => simpa using get_session_timeout now sid m

/-- Generated session ids are never the empty (falsy) string. -/
theorem session_id_ne_empty (n : Nat) : ("session-" ++ toString n) ≠ "" := by
  intro h
  have h1 : ("session-" ++ toString n).length = 0 := by rw [h]; rfl
  rw [String.length_append] at h1
  have h2 : ("session-" : String).length = 8 := rfl
  omega

/-- Formatting a user turn followed by an assistant turn yields both texts
verbatim, in order, under the context header. -/
theorem ctxFormat_user_assistant (q a : String) (t₁ t₂ : Nat) :
    ctxFormat [⟨"user", q, t₁⟩, ⟨"assistant", a, t₂⟩] =
      "Previous conversation:\nuser: " ++ q ++ "\nassistant: " ++ a ++ "\n" := by
  rw [ctxFormat]
  simp only [List.isEmpty_cons, if_neg Bool.false_ne_true, List.foldl_cons, List.foldl_nil]
  simp only [String.append_assoc]
  rfl

/-- C5: for a query opening a fresh session, the user's turn is appended to
the session before the classification call (the trace lists the append
strictly before the classification request), while the conversation context
supplied to that same query's classification — and to its generation call —
is the pre-append context (here `""`, containing no trace of the current
turn); the turn becomes visible only to the next query: a second query on
the same live session fetches a context carrying the first turn's user and
assistant text verbatim, in order, and passes it to classification. -/
theorem C5_user_turn_before_classification
    (cO : String → Option String) (gO : List (String × String) → Option String)
    (svc : String → Option (List ℚ)) (st : VSState) (t : ℚ) (k : Nat)
    (now now₂ : Nat) (q₁ q₂ : String) (mem : MemState) (ecache ec₂ : EmbCache)
    (r₁ : ExecResult) (mem₁ : MemState) (ec₁ : EmbCache) (tr₁ : List AgentEvent)
    (h₁ : execute cO gO svc st t k now q₁ none mem ecache = (.ok r₁, mem₁, ec₁, tr₁))
    (hlive : now₂ - now ≤ mem.timeout_minutes) :
    (∃ tail,
      tr₁ = AgentEvent.createdSession r₁.session_id ::
        AgentEvent.fetchedContext r₁.session_id "" ::
        AgentEvent.addedMessage r₁.session_id "user" q₁ ::
        AgentEvent.classifyCall (classificationPrompt q₁ "") :: tail ∧
      ∀ msgs, AgentEvent.generateCall msgs ∈ tail →
        ∃ c2, msgs = generateMessages q₁ c2 "") ∧
    (AgentEvent.fetchedContext r₁.session_id
        ("Previous conversation:\nuser: " ++ q₁ ++ "\nassistant: " ++ r₁.answer ++ "\n") ∈
      (execute cO gO svc st t k now₂ q₂ (some r₁.session_id) mem₁ ec₂).2.2.2 ∧
     AgentEvent.classifyCall (classificationPrompt q₂
        ("Previous conversation:\nuser: " ++ q₁ ++ "\nassistant: " ++ r₁.answer ++ "\n")) ∈
      (execute cO gO svc st t k now₂ q₂ (some r₁.session_id) mem₁ ec₂).2.2.2) := by
  have hres : resolve_session now none mem =
      ("session-" ++ toString mem.counter,
       { mem with
          sessions := (dictInsert ("session-" ++ toString mem.counter) ⟨[], now, now⟩
            mem.sessions),
          counter := mem.counter + 1 },
       [AgentEvent.createdSession ("session-" ++ toString mem.counter)]) :=
    resolve_session_none now mem
  have hlk₁ : List.lookup ("session-" ++ toString mem.counter)
      ({ mem with
          sessions := (dictInsert ("session-" ++ toString mem.counter) ⟨[], now, now⟩
            mem.sessions),
          counter := mem.counter + 1 } : MemState).sessions = some ⟨[], now, now⟩ :=
    lookup_dictInsert_self _ _ _
  have hctx : get_conversation_context now ("session-" ++ toString mem.counter) 10
      ({ mem with
          sessions := (dictInsert ("session-" ++ toString mem.counter) ⟨[], now, now⟩
            mem.sessions),
          counter := mem.counter + 1 } : MemState) =
      ("", { mem with
          sessions := (dictInsert ("session-" ++ toString mem.counter) ⟨[], now, now⟩
            (dictInsert ("session-" ++ toString mem.counter) ⟨[], now, now⟩ mem.sessions)),
          counter := mem.counter + 1 }) := by
    rw [get_conversation_context_found now ("session-" ++ toString mem.counter) 10 _
      ⟨[], now, now⟩ (by decide) hlk₁ (is_expired_fresh now mem.timeout_minutes [] now)]
    rfl
  have hE2 := execute_ok_memory cO gO svc st t k now q₁ none mem ecache r₁ mem₁ ec₁ tr₁ h₁
  have hsid : r₁.session_id = "session-" ++ toString mem.counter := by
    rw [hE2.1, hres]
  obtain ⟨tail₁, hsh₁, hgen₁⟩ :=
    execute_trace_shape cO gO svc st t k now q₁ none mem ecache
  have htr₁ : (execute cO gO svc st t k now q₁ none mem ecache).2.2.2 = tr₁ := by
    rw [h₁]
  rw [htr₁, hres] at hsh₁
  simp only at hsh₁
  rw [hctx] at hsh₁
  simp only at hsh₁
  rw [hres] at hgen₁
  simp only at hgen₁
  rw [hctx] at hgen₁
  simp only at hgen₁
  have hlk₂ : List.lookup ("session-" ++ toString mem.counter)
      ({ mem with
          sessions := (dictInsert ("session-" ++ toString mem.counter) ⟨[], now, now⟩
            (dictInsert ("session-" ++ toString mem.counter) ⟨[], now, now⟩ mem.sessions)),
          counter := mem.counter + 1 } : MemState).sessions = some ⟨[], now, now⟩ :=
    lookup_dictInsert_self _ _ _
  have hmem₁ : mem₁ =
      add_message now ("session-" ++ toString mem.counter) "assistant" r₁.answer
        (add_message now ("session-" ++ toString mem.counter) "user" q₁
          ({ mem with
            sessions := (dictInsert ("session-" ++ toString mem.counter) ⟨[], now, now⟩
              (dictInsert ("session-" ++ toString mem.counter) ⟨[], now, now⟩ mem.sessions)),
            counter := mem.counter + 1 })) := by
    rw [hE2.2, hres]
    simp only
    rw [hctx]
  have hlk₃ : List.lookup ("session-" ++ toString mem.counter)
      (add_message now ("session-" ++ toString mem.counter) "user" q₁
        ({ mem with
          sessions := (dictInsert ("session-" ++ toString mem.counter) ⟨[], now, now⟩
            (dictInsert ("session-" ++ toString mem.counter) ⟨[], now, now⟩ mem.sessions)),
          counter := mem.counter + 1 })).sessions =
      some ⟨[⟨"user", q₁, now⟩], now, now⟩ := by
    rw [add_message_found now _ "user" q₁ _ ⟨[], now, now⟩ hlk₂
      (is_expired_fresh now mem.timeout_minutes [] now)]
    simpa using lookup_dictInsert_self _ _ _
  have hlk₄ : List.lookup ("session-" ++ toString mem.counter) mem₁.sessions =
      some ⟨[⟨"user", q₁, now⟩, ⟨"assistant", r₁.answer, now⟩], now, now⟩ := by
    rw [hmem₁, add_message_found now _ "assistant" r₁.answer _ ⟨[⟨"user", q₁, now⟩], now, now⟩
      hlk₃ (is_expired_fresh now _ [⟨"user", q₁, now⟩] now)]
    simpa using lookup_dictInsert_self _ _ _
  have htm : mem₁.timeout_minutes = mem.timeout_minutes := by
    rw [hmem₁, add_message_timeout, add_message_timeout]
  have hexp₂ : is_expired now₂ mem₁.timeout_minutes
      ⟨[⟨"user", q₁, now⟩, ⟨"assistant", r₁.answer, now⟩], now, now⟩ = false := by
    rw [htm]
    simp only [is_expired]
    simp only [decide_eq_false_iff_not, not_lt]
    exact hlive
  have hres₂ := resolve_session_found now₂ ("session-" ++ toString mem.counter) mem₁
    ⟨[⟨"user", q₁, now⟩, ⟨"assistant", r₁.answer, now⟩], now, now⟩
    (session_id_ne_empty mem.counter) hlk₄ hexp₂
  have hlk₅ : List.lookup ("session-" ++ toString mem.counter)
      ({ mem₁ with sessions := (dictInsert ("session-" ++ toString mem.counter)
          ⟨[⟨"user", q₁, now⟩, ⟨"assistant", r₁.answer, now⟩], now, now₂⟩
          mem₁.sessions) } : MemState).sessions =
      some ⟨[⟨"user", q₁, now⟩, ⟨"assistant", r₁.answer, now⟩], now, now₂⟩ :=
    lookup_dictInsert_self _ _ _
  have hctx₂ : get_conversation_context now₂ ("session-" ++ toString mem.counter) 10
      ({ mem₁ with sessions := (dictInsert ("session-" ++ toString mem.counter)
          ⟨[⟨"user", q₁, now⟩, ⟨"assistant", r₁.answer, now⟩], now, now₂⟩
          mem₁.sessions) } : MemState) =
      ("Previous conversation:\nuser: " ++ q₁ ++ "\nassistant: " ++ r₁.answer ++ "\n",
       { mem₁ with sessions := (dictInsert ("session-" ++ toString mem.counter)
          ⟨[⟨"user", q₁, now⟩, ⟨"assistant", r₁.answer, now⟩], now, now₂⟩
          (dictInsert ("session-" ++ toString mem.counter)
            ⟨[⟨"user", q₁, now⟩, ⟨"assistant", r₁.answer, now⟩], now, now₂⟩
            mem₁.sessions)) }) := by
    rw [get_conversation_context_found now₂ _ 10 _
      ⟨[⟨"user", q₁, now⟩, ⟨"assistant", r₁.answer, now⟩], now, now₂⟩ (by decide) hlk₅
      (is_expired_fresh now₂ mem₁.timeout_minutes
        [⟨"user", q₁, now⟩, ⟨"assistant", r₁.answer, now⟩] now)]
    rw [show ([⟨"user", q₁, now⟩, ⟨"assistant", r₁.answer, now⟩] : List PyMessage).drop
        (([⟨"user", q₁, now⟩, ⟨"assistant", r₁.answer, now⟩] : List PyMessage).length - 10) =
        [⟨"user", q₁, now⟩, ⟨"assistant", r₁.answer, now⟩] from rfl]
    rw [ctxFormat_user_assistant q₁ r₁.answer now now]
  obtain ⟨tail₂, hsh₂, _⟩ := execute_trace_shape cO gO svc st t k now₂ q₂
    (some ("session-" ++ toString mem.counter)) mem₁ ec₂
  rw [hres₂] at hsh₂
  simp only at hsh₂
  rw [hctx₂] at hsh₂
  simp only at hsh₂
  refine ⟨⟨tail₁, ?_, ?_⟩, ?_, ?_⟩
  · rw [hsid, hsh₁]
    simp
  · intro msgs hm
    exact hgen₁ msgs hm
  · rw [hsid, hsh₂]
    simp
  · rw [hsid, hsh₂]
    simp

theorem C5_user_turn_before_classification_witness :
    execute (fun _ => some "DIRECT") (fun _ => some "ans1") (fun _ => none) ⟨[]⟩ (7/10) 3
        0 "q1" none ⟨[], 30, 0⟩ [] =
      (.ok ⟨"ans1", [], "session-0", "DIRECT", false, 0⟩,
       ⟨[("session-0", ⟨[⟨"user", "q1", 0⟩, ⟨"assistant", "ans1", 0⟩], 0, 0⟩)], 30, 1⟩,
       [],
       [AgentEvent.createdSession "session-0",
        AgentEvent.fetchedContext "session-0" "",
        AgentEvent.addedMessage "session-0" "user" "q1",
        AgentEvent.classifyCall (classificationPrompt "q1" ""),
        AgentEvent.generateCall (generateMessages "q1" "" ""),
        AgentEvent.addedMessage "session-0" "assistant" "ans1"]) ∧
    (5 : Nat) - 0 ≤ 30 ∧
    ((∃ tail,
      ([AgentEvent.createdSession "session-0",
        AgentEvent.fetchedContext "session-0" "",
        AgentEvent.addedMessage "session-0" "user" "q1",
        AgentEvent.classifyCall (classificationPrompt "q1" ""),
        AgentEvent.generateCall (generateMessages "q1" "" ""),
        AgentEvent.addedMessage "session-0" "assistant" "ans1"] : List AgentEvent) =
        AgentEvent.createdSession
            (⟨"ans1", [], "session-0", "DIRECT", false, 0⟩ : ExecResult).session_id ::
          AgentEvent.fetchedContext
            (⟨"ans1", [], "session-0", "DIRECT", false, 0⟩ : ExecResult).session_id "" ::
          AgentEvent.addedMessage
            (⟨"ans1", [], "session-0", "DIRECT", false, 0⟩ : ExecResult).session_id "user" "q1" ::
          AgentEvent.classifyCall (classificationPrompt "q1" "") :: tail ∧
      ∀ msgs, AgentEvent.generateCall msgs ∈ tail →
        ∃ c2, msgs = generateMessages "q1" c2 "") ∧
    (AgentEvent.fetchedContext
        (⟨"ans1", [], "session-0", "DIRECT", false, 0⟩ : ExecResult).session_id
        ("Previous conversation:\nuser: " ++ "q1" ++ "\nassistant: " ++
          (⟨"ans1", [], "session-0", "DIRECT", false, 0⟩ : ExecResult).answer ++ "\n") ∈
      (execute (fun _ => some "DIRECT") (fun _ => some "ans1") (fun _ => none) ⟨[]⟩ (7/10) 3
        5 "q2" (some (⟨"ans1", [], "session-0", "DIRECT", false, 0⟩ : ExecResult).session_id)
        ⟨[("session-0", ⟨[⟨"user", "q1", 0⟩, ⟨"assistant", "ans1", 0⟩], 0, 0⟩)], 30, 1⟩
        []).2.2.2 ∧
     AgentEvent.classifyCall (classificationPrompt "q2"
        ("Previous conversation:\nuser: " ++ "q1" ++ "\nassistant: " ++
          (⟨"ans1", [], "session-0", "DIRECT", false, 0⟩ : ExecResult).answer ++ "\n")) ∈
      (execute (fun _ => some "DIRECT") (fun _ => some "ans1") (fun _ => none) ⟨[]⟩ (7/10) 3
        5 "q2" (some (⟨"ans1", [], "session-0", "DIRECT", false, 0⟩ : ExecResult).session_id)
        ⟨[("session-0", ⟨[⟨"user", "q1", 0⟩, ⟨"assistant", "ans1", 0⟩], 0, 0⟩)], 30, 1⟩
        []).2.2.2)) :=
  ⟨rfl, by decide,
    C5_user_turn_before_classification (fun _ => some "DIRECT") (fun _ => some "ans1")
      (fun _ => none) ⟨[]⟩ (7/10) 3 0 5 "q1" "q2" ⟨[], 30, 0⟩ [] []
      ⟨"ans1", [], "session-0", "DIRECT", false, 0⟩
      ⟨[("session-0", ⟨[⟨"user", "q1", 0⟩, ⟨"assistant", "ans1", 0⟩], 0, 0⟩)], 30, 1⟩
      []
      [AgentEvent.createdSession "session-0",
       AgentEvent.fetchedContext "session-0" "",
       AgentEvent.addedMessage "session-0" "user" "q1",
       AgentEvent.classifyCall (classificationPrompt "q1" ""),
       AgentEvent.generateCall (generateMessages "q1" "" ""),
       AgentEvent.addedMessage "session-0" "assistant" "ans1"]
      rfl (by decide)⟩

/-- C6: when the query is classified as needing grounding and retrieval
yields zero sources, `execute` returns the fixed "could not find relevant
information" answer, reports no sources, and never issues a generation
call. -/
theorem C6_zero_sources_short_circuit (cO : String → Option String)
    (gO : List (String × String) → Option String)
    (svc : String → Option (List ℚ)) (st : VSState) (t : ℚ) (top_k : Nat)
    (now : Nat) (query : String) (session_id : Option String)
    (mem : MemState) (ecache : EmbCache) (ctxt : String) (c : EmbCache)
    (calls : List (List String))
    (hcls : ∀ ctx, (classify_query cO query ctx).needs_rag = true)
    (hsearch : tool_run svc ecache st t top_k query = (.ok (ctxt, []), c, calls)) :
    ∃ r mem' trace,
      execute cO gO svc st t top_k now query session_id mem ecache =
        (.ok r, mem', c, trace) ∧
      r.answer = noInfoAnswer ∧ r.sources = [] ∧ r.used_rag = true ∧
      r.num_sources = 0 ∧
      ∀ msgs, AgentEvent.generateCall msgs ∉ trace := by
  simp only [execute]
  rw [hcls, if_pos rfl, hsearch]
  simp only [List.isEmpty_nil, if_pos rfl]
  refine ⟨_, _, _, rfl, rfl, rfl, rfl, rfl, ?_⟩
  intro msgs hmem
  rcases resolve_session_events now session_id mem with h0 | ⟨s, hs⟩
  · rw [h0] at hmem
    simp at hmem
  · rw [hs] at hmem
    simp at hmem

theorem C6_zero_sources_short_circuit_witness :
    (∀ ctx, (classify_query (fun _ => none) "What is 2+2?" ctx).needs_rag = true) ∧
    tool_run (fun _ => none) [] ⟨[]⟩ (7/10) 3 "What is 2+2?" =
      (.ok ("No relevant documents found.", []), [], []) ∧
    (∃ r mem' trace,
      execute (fun _ => none) (fun _ => some "anything") (fun _ => none) ⟨[]⟩ (7/10) 3
          0 "What is 2+2?" none ⟨[], 30, 0⟩ [] =
        (.ok r, mem', [], trace) ∧
      r.answer = noInfoAnswer ∧ r.sources = [] ∧ r.used_rag = true ∧
      r.num_sources = 0 ∧
      ∀ msgs, AgentEvent.generateCall msgs ∉ trace) :=
  ⟨fun _ => rfl, rfl,
    C6_zero_sources_short_circuit (fun _ => none) (fun _ => some "anything")
      (fun _ => none) ⟨[]⟩ (7/10) 3 0 "What is 2+2?" none ⟨[], 30, 0⟩ []
      "No relevant documents found." [] [] (fun _ => rfl) rfl⟩

theorem C9_dedup_first_seen_witness :
    ((∃ results, (vsSearch (fun _ => none) [] ⟨[]⟩ (7/10) 3 "q").1 = .ok results ∧
      ([] : List String) = results.map (·.doc.content) ∧
      ([] : List String) = specFirstSeen (results.map (·.doc.source)) ∧
      ([] : List String).Nodup ∧
      List.Sublist ([] : List String) (results.map (·.doc.source)) ∧
      (∀ s, s ∈ ([] : List String) ↔ s ∈ results.map (·.doc.source))) ∧
    sourceDedup ["A", "B", "A", "C"] = ["A", "B", "C"]) :=
  C9_dedup_first_seen (fun _ => none) [] ⟨[]⟩ (7/10) 3 "q" [] [] rfl
